import Mathlib

/-!
Verification development for the multi-language structural source-code
extraction engine (DOCE_CODE_V3_LLM/treesitter).

The engine consumes concrete syntax trees produced by an external tree
provider (the tree-sitter library).  Following the boundary contract of the
design (the provider exposes, per node: construct-kind tag, raw text, span
points, ordered child enumeration, named-field lookup, and sibling lookup),
syntax trees are modelled by the `Node` type below, and the extraction
functions of `treesitter_py.py` / `treesitter_java.py` are translated over
it.  Python exceptions inside a `parse` call are modelled with
`Except String`; the `try/except` wrapper of `MultiLanguageParser.parse`
catches any such exception and re-raises with a message naming the language,
which is translated faithfully.
-/

/-- The per-node data the engine reads from the tree provider: the node type
(construct-kind tag), whether the node is named (anonymous token nodes are
unnamed and are skipped by `prev_named_sibling`), its raw source text, the
field label it carries under its parent (for `child_by_field_name`), and its
start/end points (row, column). -/
structure NodeInfo where
  ty : String
  named : Bool
  text : String
  fieldLabel : Option String
  startPoint : Nat × Nat
  endPoint : Nat × Nat
deriving DecidableEq

/- A concrete syntax tree node: node data plus the ordered list of all
children (named and anonymous), as enumerated by `node.children` in the
tree-sitter API.  `NodeList` is an inlined list so that all traversals are
structural recursions. -/
mutual
inductive Node : Type where
  | mk (info : NodeInfo) (children : NodeList)

inductive NodeList : Type where
  | nil
  | cons (hd : Node) (tl : NodeList)
end

def Node.info : Node → NodeInfo
  | .mk i _ => i

def Node.children : Node → NodeList
  | .mk _ cs => cs

def Node.ty (n : Node) : String := n.info.ty

def Node.named (n : Node) : Bool := n.info.named

def Node.text (n : Node) : String := n.info.text

def Node.fieldLabel (n : Node) : Option String := n.info.fieldLabel

def Node.startPoint (n : Node) : Nat × Nat := n.info.startPoint

def Node.endPoint (n : Node) : Nat × Nat := n.info.endPoint

/-- Build a `NodeList` from a `List Node` (for writing concrete trees). -/
def nodeList : List Node → NodeList
  | [] => .nil
  | c :: cs => .cons c (nodeList cs)

/-- First child (models Python `node.children[0]`; `none` when empty). -/
def NodeList.head? : NodeList → Option Node
  | .nil => none
  | .cons c _ => some c

/-- First child whose field label under its parent equals `f`; models the
tree-sitter `child_by_field_name` lookup. -/
def NodeList.findByField : NodeList → String → Option Node
  | .nil, _ => none
  | .cons c cs, f => if c.fieldLabel == some f then some c else cs.findByField f

def Node.childByFieldName (n : Node) (f : String) : Option Node :=
  n.children.findByField f

/-- First child with the given node type; models `for child in node.children:
if child.type == t: return child` scans. -/
def NodeList.findByTy : NodeList → String → Option Node
  | .nil, _ => none
  | .cons c cs, t => if c.ty == t then some c else cs.findByTy t

/-- A node-type tag in `LANGUAGE_CONFIGS['*']['method_identifier']` is either
a single string or (for java) a list of strings. -/
inductive TagSpec where
  | str (s : String)
  | strList (ss : List String)
deriving DecidableEq

/-- Comparison `node.type == config['method_identifier']`: Python equality between a
string and a list is always `False`, so a list-valued tag never matches. -/
def tagEq (t : TagSpec) (ty : String) : Bool :=
  match t with
  | .str s => ty == s
  | .strList _ => false

/-- One entry of `MultiLanguageParser.LANGUAGE_CONFIGS` (minus the grammar
module, which belongs to the external provider), together with the config
key stored in `self.language`. -/
structure Config where
  languageId : String
  method_identifier : TagSpec
  class_identifier : String
  import_identifiers : List String
  docstring_type : String
  name_field : String
  params_field : String
deriving DecidableEq

/-- Entry `LANGUAGE_CONFIGS['python']`. -/
def pythonConfig : Config :=
  { languageId := "python"
    method_identifier := .str "def_statement"
    class_identifier := "class"
    import_identifiers := ["import statement", "from statement import list"]
    docstring_type := "string"
    name_field := "name"
    params_field := "parameters" }

/-- Entry `LANGUAGE_CONFIGS['java']`; its `method_identifier` is a list. -/
def javaConfig : Config :=
  { languageId := "java"
    method_identifier := .strList
      ["public void exampleMethod()\x7b", "public static void exampleMethod()\x7b",
       "private void exampleMethod()\x7b"]
    class_identifier := "public class Example \x7b"
    import_identifiers := ["import Scanner", "import java.util.Scanner", "import java.util.*"]
    docstring_type := "comment"
    name_field := "name"
    params_field := "formal_parameters" }

/-- Entry `LANGUAGE_CONFIGS['cpp']`. -/
def cppConfig : Config :=
  { languageId := "cpp"
    method_identifier := .str "void function_name()\x7b"
    class_identifier := "class Example\x7b"
    import_identifiers := ["#include <iostream>", "#include <vector>", "#include <string>"]
    docstring_type := "comment"
    name_field := "declarator"
    params_field := "parameter_list" }

/-- Entry `LANGUAGE_CONFIGS['c']`. -/
def cConfig : Config :=
  { languageId := "c"
    method_identifier := .str "void function_name()\x7b"
    class_identifier := "struct Example\x7b"
    import_identifiers := ["#include <stdio.h>", "#include <stdlib.h>", "#include <string.h>"]
    docstring_type := "comment"
    name_field := "declarator"
    params_field := "parameter_list" }

/-- Entry `LANGUAGE_CONFIGS['javascript']`. -/
def javascriptConfig : Config :=
  { languageId := "javascript"
    method_identifier := .str "function exampleFunction()\x7b"
    class_identifier := "class declaration\x7b"
    import_identifiers :=
      ["import * as fs from \"fs\"", "import * as path from \"path\"",
       "import \x7b example \x7d from \"./example\""]
    docstring_type := "comment"
    name_field := "name"
    params_field := "formal_parameters" }

/-- The `LANGUAGE_CONFIGS` table, keyed exactly as in the source. -/
def LANGUAGE_CONFIGS : List (String × Config) :=
  [("python", pythonConfig), ("java", javaConfig), ("cpp", cppConfig),
   ("c", cConfig), ("javascript", javascriptConfig)]

/-- Python `str.lower()` on the ASCII language ids the registry uses:
per-character lowercasing. -/
def strLower (s : String) : String := String.mk (s.data.map Char.toLower)

/-- Constructor `MultiLanguageParser.__init__`: lowers the requested language, and raises
`ValueError("Unsupported language: ...")` (the configuration error) when the
lowered id has no entry in `LANGUAGE_CONFIGS`; otherwise the parser is
constructed over that entry. -/
def MultiLanguageParser.init (language : String) : Except String Config :=
  let lang := strLower language
  match LANGUAGE_CONFIGS.find? (fun p => p.1 == lang) with
  | none => .error ("Unsupported language: " ++ language)
  | some p => .ok p.2

/-- Record `TreesitterMethodNode`: the record built for each extracted callable. -/
structure TreesitterMethodNode where
  name : String
  doc_comment : String
  method_source_code : String
  start_line : Nat
  end_line : Nat
deriving DecidableEq

/-- The dict built per class by `_extract_classes`. -/
structure ClassRecord where
  name : String
  docstring : String
  methods : List TreesitterMethodNode
  start_point : Nat × Nat
  end_point : Nat × Nat
deriving DecidableEq

/-- The dict built per import by `_extract_imports`. -/
structure ImportRecord where
  ty : String
  text : String
deriving DecidableEq

/-- The dict built per variable by `_extract_variables`: python/javascript
records carry keys \x7bname, value\x7d, the c-family records keys
\x7bname, type\x7d. -/
inductive VarRecord where
  | nv (name value : String)
  | nt (name type : String)
deriving DecidableEq

/-- The dict returned by `MultiLanguageParser.parse` on success. -/
structure ParseResult where
  imports : List ImportRecord
  classes : List ClassRecord
  functions : List TreesitterMethodNode
  «variables» : List VarRecord
deriving DecidableEq

/-- Translation of `_extract_name`: empty string for a missing node; for cpp/c a node of
type `function_declarator` is scanned for a direct `identifier` child whose
text is returned; every other case returns the node's full text. -/
def extract_name (cfg : Config) : Option Node → String
  | none => ""
  | some n =>
    if cfg.languageId == "cpp" || cfg.languageId == "c" then
      if n.ty == "function_declarator" then
        match n.children.findByTy "identifier" with
        | some c => c.text
        | none => n.text
      else n.text
    else n.text

/-- The python-branch loop of `_find_docstring`: scan all children in order;
at a child of type `expression_statement`, inspect `child.children[0]` — an
empty child list raises `IndexError` (modelled as the error value), a
`string` first child returns its text, anything else continues the scan. -/
def py_doc_scan : NodeList → Except String (Option String)
  | .nil => .ok none
  | .cons c rest =>
    if c.ty == "expression_statement" then
      match c.children.head? with
      | none => .error "list index out of range"
      | some s => if s.ty == "string" then .ok (some s.text) else py_doc_scan rest
    else py_doc_scan rest

/-- Translation of `_find_docstring`: for the python config, first the child scan; when the
scan falls through (and for every other language), the node's previous named
sibling is consulted and its text returned when its type equals the config's
`docstring_type`; otherwise the empty string.  The previous named sibling is
supplied by the traversal (`prev_named_sibling` in the tree API). -/
def find_docstring (cfg : Config) (n : Node) (prevNamed : Option Node) :
    Except String String := do
  let scanned ← if cfg.languageId == "python" then py_doc_scan n.children else pure none
  match scanned with
  | some s => pure s
  | none =>
    match prevNamed with
    | some p => if p.ty == cfg.docstring_type then pure p.text else pure ""
    | none => pure ""

mutual
/-- Translation of the `_extract_functions` traversal (`visit_function`): at each node matching
the config's `method_identifier` a `TreesitterMethodNode` is appended, then
all children are visited.  The previous named sibling of each visited node is
threaded through so `_find_docstring` can consult it; the recursion into a
node's children restarts sibling tracking at `none`. -/
def visit_function (cfg : Config) : Node → Option Node →
    Except String (List TreesitterMethodNode)
  | .mk i cs, prevNamed => do
    let here ←
      if tagEq cfg.method_identifier i.ty then do
        let nameNode := cs.findByField cfg.name_field
        let name := extract_name cfg nameNode
        let doc ← find_docstring cfg (.mk i cs) prevNamed
        pure [{ name := name, doc_comment := doc, method_source_code := i.text,
                start_line := i.startPoint.1, end_line := i.endPoint.1 }]
      else pure []
    let rest ← visit_function_list cfg cs none
    pure (here ++ rest)

/-- The `for child in node.children: visit_function(child)` loop, tracking
each child's previous named sibling. -/
def visit_function_list (cfg : Config) :
    NodeList → Option Node → Except String (List TreesitterMethodNode)
  | .nil, _ => pure []
  | .cons c cs, pn => do
    let r ← visit_function cfg c pn
    let r2 ← visit_function_list cfg cs (if c.named then some c else pn)
    pure (r ++ r2)
end

mutual
/-- Translation of the `_extract_classes` traversal (`visit_class`): at each node matching the
config's `class_identifier` a class dict is built — its `methods` list comes
from a fresh `_extract_functions` traversal of the matched node's own
subtree — then all children are visited. -/
def visit_class (cfg : Config) : Node → Option Node →
    Except String (List ClassRecord)
  | .mk i cs, prevNamed => do
    let here ←
      if i.ty == cfg.class_identifier then do
        let name := extract_name cfg (cs.findByField cfg.name_field)
        let doc ← find_docstring cfg (.mk i cs) prevNamed
        let methods ← visit_function cfg (.mk i cs) prevNamed
        pure [{ name := name, docstring := doc, methods := methods,
                start_point := i.startPoint, end_point := i.endPoint }]
      else pure []
    let rest ← visit_class_list cfg cs none
    pure (here ++ rest)

/-- The `for child in node.children: visit_class(child)` loop. -/
def visit_class_list (cfg : Config) :
    NodeList → Option Node → Except String (List ClassRecord)
  | .nil, _ => pure []
  | .cons c cs, pn => do
    let r ← visit_class cfg c pn
    let r2 ← visit_class_list cfg cs (if c.named then some c else pn)
    pure (r ++ r2)
end

mutual
/-- Translation of the `_extract_imports` traversal: membership of the node type in the config's
`import_identifiers` list appends an import dict. -/
def visit_import (cfg : Config) : Node → List ImportRecord
  | .mk i cs =>
    (if cfg.import_identifiers.contains i.ty then [{ ty := i.ty, text := i.text }] else [])
      ++ visit_import_list cfg cs

/-- The `for child in node.children: visit_import(child)` loop. -/
def visit_import_list (cfg : Config) : NodeList → List ImportRecord
  | .nil => []
  | .cons c cs => visit_import cfg c ++ visit_import_list cfg cs
end

/-- The inner loop of the javascript branch of `_extract_variables`: each
`variable_declarator` child with a `name` field contributes one record. -/
def js_declarator_scan : NodeList → List VarRecord
  | .nil => []
  | .cons d ds =>
    (if d.ty == "variable_declarator" then
      match d.childByFieldName "name" with
      | some nm =>
        [.nv nm.text (match d.childByFieldName "value" with | some v => v.text | none => "")]
      | none => []
    else [])
      ++ js_declarator_scan ds

mutual
/-- Translation of the `_extract_variables` traversal, with the per-language branches of the
source: python `assignment` nodes (left/right fields), c-family `declaration`
nodes (declarator plus optional type), javascript declaration nodes scanning
`variable_declarator` children (name field required, value optional). -/
def visit_variable (cfg : Config) : Node → List VarRecord
  | .mk i cs =>
    (if cfg.languageId == "python" then
      if i.ty == "assignment" then
        match cs.findByField "left", cs.findByField "right" with
        | some l, some r => [.nv l.text r.text]
        | _, _ => []
      else []
    else if cfg.languageId == "java" || cfg.languageId == "cpp" || cfg.languageId == "c" then
      if i.ty == "declaration" then
        match cs.findByField "declarator" with
        | some d =>
          [.nt d.text (match cs.findByField "type" with | some t => t.text | none => "")]
        | none => []
      else []
    else if cfg.languageId == "javascript" then
      if i.ty == "variable_declaration" || i.ty == "lexical_declaration" then
        js_declarator_scan cs
      else []
    else [])
      ++ visit_variable_list cfg cs

/-- The `for child in node.children: visit_variable(child)` loop. -/
def visit_variable_list (cfg : Config) : NodeList → List VarRecord
  | .nil => []
  | .cons c cs => visit_variable cfg c ++ visit_variable_list cfg cs
end

/-- Translation of `MultiLanguageParser.parse`: the external provider's tree build outcome is
the `treeResult` argument (`self.parser.parse(bytes(source_code, 'utf8'))`).
The body runs under `try/except`; any failure — a tree build failure or an
exception inside the extraction helpers — is re-raised as
`Exception("Failed to parse {language} source code: {cause}")`.  On success
the four sequences are assembled in source order. -/
def MultiLanguageParser.parse (cfg : Config) (treeResult : Except String Node) :
    Except String ParseResult :=
  match (do
    let root ← treeResult
    let imports := visit_import cfg root
    let classes ← visit_class cfg root none
    let functions ← visit_function cfg root none
    let vars := visit_variable cfg root
    pure { imports := imports, classes := classes, functions := functions,
           «variables» := vars } : Except String ParseResult) with
  | .ok r => .ok r
  | .error e => .error ("Failed to parse " ++ cfg.languageId ++ " source code: " ++ e)

deriving instance DecidableEq for Except

/-- An anonymous token node (no children; tree-sitter gives such nodes the
literal token string as their type). -/
def tokN (ty text : String) (sp ep : Nat × Nat) : Node :=
  .mk { ty := ty, named := false, text := text, fieldLabel := none,
        startPoint := sp, endPoint := ep } .nil

/-- A named node with children, optionally carrying a field label under its
parent. -/
def namedN (ty text : String) (fl : Option String) (sp ep : Nat × Nat)
    (cs : List Node) : Node :=
  .mk { ty := ty, named := true, text := text, fieldLabel := fl,
        startPoint := sp, endPoint := ep } (nodeList cs)

/-- The parameter dict of `JavaParser._extract_parameters`. -/
structure JParam where
  type : String
  name : String
deriving DecidableEq

/-- The field dict of `JavaParser._extract_fields`. -/
structure JField where
  type : String
  name : String
deriving DecidableEq

/-- The method dict of `JavaParser._extract_methods`. -/
structure JMethod where
  name : String
  source_code : String
  doc_comment : String
  start_point : Nat × Nat
  end_point : Nat × Nat
  parameters : List JParam
  return_type : String
deriving DecidableEq

/-- The class dict of `JavaParser._extract_classes`. -/
structure JClass where
  name : String
  methods : List JMethod
  doc_comment : String
  fields : List JField
deriving DecidableEq

/-- The interface dict of `JavaParser._extract_interfaces`. -/
structure JInterface where
  name : String
  methods : List JMethod
  doc_comment : String
deriving DecidableEq

/-- The dict returned by `JavaParser.parse_code`. -/
structure JavaParseResult where
  imports : List ImportRecord
  package : String
  classes : List JClass
  functions : List JMethod
  interfaces : List JInterface
deriving DecidableEq

/-- Translation of `JavaParser._extract_doc_comment`: the node's raw previous sibling
(anonymous tokens included), when it is a `comment` node, supplies the doc
text; otherwise empty. -/
def extract_doc_comment (prevSib : Option Node) : String :=
  match prevSib with
  | some p => if p.ty == "comment" then p.text else ""
  | none => ""

/-- The inner loop of `JavaParser._extract_parameters` over one
`formal_parameter` node's children: the last `type_identifier` child wins the
type slot, the last `identifier` child wins the name slot. -/
def jparam_field_scan : NodeList → Option String → Option String →
    Option String × Option String
  | .nil, t, n => (t, n)
  | .cons c cs, t, n =>
    if c.ty == "type_identifier" then jparam_field_scan cs (some c.text) n
    else if c.ty == "identifier" then jparam_field_scan cs t (some c.text)
    else jparam_field_scan cs t n

/-- The loop of `JavaParser._extract_parameters` over a `formal_parameters`
node's children: each `formal_parameter` child with both a type and a name
contributes one dict; incomplete parameters are dropped. -/
def jformal_param_scan : NodeList → List JParam
  | .nil => []
  | .cons p ps =>
    (if p.ty == "formal_parameter" then
      match jparam_field_scan p.children none none with
      | (some t, some n) => [{ type := t, name := n }]
      | _ => []
    else [])
      ++ jformal_param_scan ps

/-- Translation of `JavaParser._extract_parameters`: scans the method node's direct children
for `formal_parameters` nodes and collects their parameters. -/
def jextract_parameters : NodeList → List JParam
  | .nil => []
  | .cons c cs =>
    (if c.ty == "formal_parameters" then jformal_param_scan c.children else [])
      ++ jextract_parameters cs

/-- Translation of `JavaParser._extract_return_type`: first direct child typed
`type_identifier` or `void_type`, defaulting to `void`. -/
def jextract_return_type : NodeList → String
  | .nil => "void"
  | .cons c cs =>
    if c.ty == "type_identifier" || c.ty == "void_type" then c.text
    else jextract_return_type cs

/-- Inner loop of `JavaParser._extract_fields` over a `variable_declarator`
node's children: the last `identifier` child wins. -/
def jlast_identifier : NodeList → Option String → Option String
  | .nil, n => n
  | .cons c cs, n =>
    jlast_identifier cs (if c.ty == "identifier" then some c.text else n)

/-- Loop of `JavaParser._extract_fields` over one `field_declaration` node's
children: last `type_identifier` wins the type, identifiers inside
`variable_declarator` children win the name. -/
def jfield_field_scan : NodeList → Option String → Option String →
    Option String × Option String
  | .nil, t, n => (t, n)
  | .cons c cs, t, n =>
    if c.ty == "type_identifier" then jfield_field_scan cs (some c.text) n
    else if c.ty == "variable_declarator" then
      jfield_field_scan cs t (jlast_identifier c.children n)
    else jfield_field_scan cs t n

/-- Translation of `JavaParser._extract_fields`: scans the class node's direct children for
`field_declaration` nodes; a field needs both a type and a name. -/
def jextract_fields : NodeList → List JField
  | .nil => []
  | .cons c cs =>
    (if c.ty == "field_declaration" then
      match jfield_field_scan c.children none none with
      | (some t, some n) => [{ type := t, name := n }]
      | _ => []
    else [])
      ++ jextract_fields cs

mutual
/-- Translation of the `JavaParser._extract_methods` traversal (`visit_method`): every
`method_declaration` node with a direct `identifier` child yields a method
dict; the raw previous sibling is threaded for `_extract_doc_comment`. -/
def visit_jmethod : Node → Option Node → List JMethod
  | .mk i cs, prevSib =>
    (if i.ty == "method_declaration" then
      match cs.findByTy "identifier" with
      | some nameNode =>
        [{ name := nameNode.text, source_code := i.text,
           doc_comment := extract_doc_comment prevSib,
           start_point := i.startPoint, end_point := i.endPoint,
           parameters := jextract_parameters cs,
           return_type := jextract_return_type cs }]
      | none => []
    else [])
      ++ visit_jmethod_list cs none

/-- The `for child in node.children: visit_method(child)` loop. -/
def visit_jmethod_list : NodeList → Option Node → List JMethod
  | .nil, _ => []
  | .cons c cs, ps => visit_jmethod c ps ++ visit_jmethod_list cs (some c)
end

mutual
/-- Translation of the `JavaParser._extract_classes` traversal (`visit_class`): every
`class_declaration` node with a direct `identifier` child yields a class
dict whose methods come from a fresh `_extract_methods` traversal of the
class node's own subtree. -/
def visit_jclass : Node → Option Node → List JClass
  | .mk i cs, prevSib =>
    (if i.ty == "class_declaration" then
      match cs.findByTy "identifier" with
      | some nameNode =>
        [{ name := nameNode.text,
           methods := visit_jmethod (.mk i cs) prevSib,
           doc_comment := extract_doc_comment prevSib,
           fields := jextract_fields cs }]
      | none => []
    else [])
      ++ visit_jclass_list cs none

/-- The `for child in node.children: visit_class(child)` loop. -/
def visit_jclass_list : NodeList → Option Node → List JClass
  | .nil, _ => []
  | .cons c cs, ps => visit_jclass c ps ++ visit_jclass_list cs (some c)
end

mutual
/-- Translation of the `JavaParser._extract_interfaces` traversal. -/
def visit_jinterface : Node → Option Node → List JInterface
  | .mk i cs, prevSib =>
    (if i.ty == "interface_declaration" then
      match cs.findByTy "identifier" with
      | some nameNode =>
        [{ name := nameNode.text,
           methods := visit_jmethod (.mk i cs) prevSib,
           doc_comment := extract_doc_comment prevSib }]
      | none => []
    else [])
      ++ visit_jinterface_list cs none

/-- The `for child in node.children: visit_interface(child)` loop. -/
def visit_jinterface_list : NodeList → Option Node → List JInterface
  | .nil, _ => []
  | .cons c cs, ps => visit_jinterface c ps ++ visit_jinterface_list cs (some c)
end

/-- Translation of `JavaParser._extract_package`: first direct `package_declaration` child. -/
def jextract_package : NodeList → String
  | .nil => ""
  | .cons c cs => if c.ty == "package_declaration" then c.text else jextract_package cs

/-- Translation of `JavaParser._extract_imports`: direct `import_declaration` children only,
labelled with the fixed kind `import`. -/
def jextract_imports : NodeList → List ImportRecord
  | .nil => []
  | .cons c cs =>
    (if c.ty == "import_declaration" then [{ ty := "import", text := c.text }] else [])
      ++ jextract_imports cs

/-- Translation of `JavaParser.parse_code` applied to the root of the provider's tree. -/
def JavaParser.parse_code (root : Node) : JavaParseResult :=
  { imports := jextract_imports root.children
    package := jextract_package root.children
    classes := visit_jclass root none
    functions := visit_jmethod root none
    interfaces := visit_jinterface root none }

/-- View of a `NodeList` as a `List Node` (for stating list-library properties). -/
def NodeList.toList : NodeList → List Node
  | .nil => []
  | .cons c cs => c :: cs.toList

mutual
/-- All node types occurring in a tree (the node's own type plus those of
every descendant). -/
def nodeTypes : Node → List String
  | .mk i cs => i.ty :: nodeTypesList cs

/-- All node types occurring in a forest. -/
def nodeTypesList : NodeList → List String
  | .nil => []
  | .cons c cs => nodeTypes c ++ nodeTypesList cs
end

/-- No node in the tree carries a type from `bad`. -/
def TyAvoids (bad : List String) (n : Node) : Prop :=
  ∀ s ∈ nodeTypes n, s ∉ bad

instance instDecidableTyAvoids (bad : List String) (n : Node) :
    Decidable (TyAvoids bad n) := by
  unfold TyAvoids; exact inferInstance

/-- The configured tag strings of `LANGUAGE_CONFIGS` that are never produced
as node types by the five tree-sitter grammars: the string-valued method
identifiers, all import identifiers, and the class identifiers of the
non-python profiles.  (The python class identifier `class` is deliberately
absent: the anonymous `class` keyword token of the python grammar has exactly
that type.) -/
def junkTags : List String :=
  ["def_statement", "void function_name()\x7b", "function exampleFunction()\x7b",
   "import statement", "from statement import list",
   "import Scanner", "import java.util.Scanner", "import java.util.*",
   "#include <iostream>", "#include <vector>", "#include <string>",
   "#include <stdio.h>", "#include <stdlib.h>", "#include <string.h>",
   "import * as fs from \"fs\"", "import * as path from \"path\"",
   "import \x7b example \x7d from \"./example\"",
   "public class Example \x7b", "class Example\x7b", "struct Example\x7b",
   "class declaration\x7b"]

/-- Lexicographic order on tree-sitter points (row, column). -/
def PtLE (a b : Nat × Nat) : Prop :=
  a.1 < b.1 ∨ (a.1 = b.1 ∧ a.2 ≤ b.2)

instance instDecidablePtLE (a b : Nat × Nat) : Decidable (PtLE a b) := by
  unfold PtLE; exact inferInstance

/-- Every node of the list starts at or after the point `lo`. -/
def allAfter (lo : Nat × Nat) : NodeList → Bool
  | .nil => true
  | .cons d ds => decide (PtLE lo d.startPoint) && allAfter lo ds

/-- Every node of the list ends at or before the point `hi`. -/
def allBelow (hi : Nat × Nat) : NodeList → Bool
  | .nil => true
  | .cons d ds => decide (PtLE d.endPoint hi) && allBelow hi ds

/-- Sibling spans are ordered: each node ends before every later sibling
starts. -/
def siblingsOrdered : NodeList → Bool
  | .nil => true
  | .cons c cs => allAfter c.endPoint cs && siblingsOrdered cs

mutual
/-- Well-formed tree, as delivered by the provider: each node's start point
is at most its end point, children lie within the parent's span, siblings
are ordered and non-overlapping, and all subtrees are well-formed. -/
def nodeWF : Node → Bool
  | .mk i cs =>
    decide (PtLE i.startPoint i.endPoint) && allAfter i.startPoint cs &&
      allBelow i.endPoint cs && siblingsOrdered cs && nodeListWF cs

/-- Well-formedness of every tree in a forest. -/
def nodeListWF : NodeList → Bool
  | .nil => true
  | .cons c cs => nodeWF c && nodeListWF cs
end

/-- The guard of the spec-style reformulation of the python docstring scan:
an `expression_statement` child is selected when its first sub-node is
missing (the crash case) or is a `string`. -/
def doc_scan_pred (c : Node) : Bool :=
  c.ty == "expression_statement" &&
    (match c.children.head? with
     | none => true
     | some s => s.ty == "string")

/-- Reformulation of `_find_docstring` used to characterise its actual
behaviour: for the python profile the FIRST child (among all children, not
just the first hop) satisfying `doc_scan_pred` decides the outcome; when no
child qualifies — and for every non-python profile directly — the single
previous named sibling is consulted. -/
def find_docstring_spec (cfg : Config) (n : Node) (prevNamed : Option Node) :
    Except String String :=
  let fallback :=
    match prevNamed with
    | some p => if p.ty == cfg.docstring_type then p.text else ""
    | none => ""
  if cfg.languageId == "python" then
    match n.children.toList.find? doc_scan_pred with
    | some c =>
      match c.children.head? with
      | none => .error "list index out of range"
      | some s => .ok s.text
    | none => .ok fallback
  else .ok fallback

/-- Concrete syntax tree the tree-sitter python grammar produces for the
source `class A: pass` (modelled provider output): the `class_definition`
node starts with the anonymous keyword token whose node type is the literal
string `class`. -/
def pyClassTree : Node :=
  namedN "module" "class A: pass" none (0,0) (0,13)
    [namedN "class_definition" "class A: pass" none (0,0) (0,13)
      [tokN "class" "class" (0,0) (0,5),
       namedN "identifier" "A" (some "name") (0,6) (0,7) [],
       tokN ":" ":" (0,7) (0,8),
       namedN "block" "pass" (some "body") (0,9) (0,13)
         [namedN "pass_statement" "pass" none (0,9) (0,13) []]]]

/-- The class dict `_extract_classes` builds for the anonymous `class`
keyword token of `pyClassTree`. -/
def pyClassTokenRec : ClassRecord :=
  { name := "", docstring := "", methods := [],
    start_point := (0,0), end_point := (0,5) }

/-- Concrete syntax tree the tree-sitter python grammar produces for
Scenario 1, `def foo():\n    \"\"\"doc\"\"\"\n    return 1` (modelled
provider output): the definition node's type is `function_definition`. -/
def pyFooTree : Node :=
  namedN "module" "def foo():\n    \"\"\"doc\"\"\"\n    return 1" none (0,0) (2,12)
    [namedN "function_definition" "def foo():\n    \"\"\"doc\"\"\"\n    return 1"
        none (0,0) (2,12)
      [tokN "def" "def" (0,0) (0,3),
       namedN "identifier" "foo" (some "name") (0,4) (0,7) [],
       namedN "parameters" "()" (some "parameters") (0,7) (0,9) [],
       tokN ":" ":" (0,9) (0,10),
       namedN "block" "\"\"\"doc\"\"\"\n    return 1" (some "body") (1,4) (2,12)
         [namedN "expression_statement" "\"\"\"doc\"\"\"" none (1,4) (1,13)
           [namedN "string" "\"\"\"doc\"\"\"" none (1,4) (1,13) []],
          namedN "return_statement" "return 1" none (2,4) (2,12)
           [tokN "return" "return" (2,4) (2,10),
            namedN "integer" "1" none (2,11) (2,12) []]]]]

/-- Concrete syntax tree the tree-sitter javascript grammar produces for
Scenario 5, `const a = 5;` (modelled provider output). -/
def jsConstTree : Node :=
  namedN "program" "const a = 5;" none (0,0) (0,12)
    [namedN "lexical_declaration" "const a = 5;" none (0,0) (0,12)
      [tokN "const" "const" (0,0) (0,5),
       namedN "variable_declarator" "a = 5" none (0,6) (0,11)
         [namedN "identifier" "a" (some "name") (0,6) (0,7) [],
          tokN "=" "=" (0,8) (0,9),
          namedN "number" "5" (some "value") (0,10) (0,11) []],
       tokN ";" ";" (0,11) (0,12)]]

/-- Concrete syntax tree the tree-sitter java grammar produces for the
source `class Example \x7b\n  public void bar()\x7b\x7d\n\x7d` (modelled
provider output). -/
def javaBarTree : Node :=
  namedN "program" "class Example \x7b\n  public void bar()\x7b\x7d\n\x7d" none (0,0) (2,1)
    [namedN "class_declaration" "class Example \x7b\n  public void bar()\x7b\x7d\n\x7d"
        none (0,0) (2,1)
      [tokN "class" "class" (0,0) (0,5),
       namedN "identifier" "Example" (some "name") (0,6) (0,13) [],
       namedN "class_body" "\x7b\n  public void bar()\x7b\x7d\n\x7d" (some "body") (0,14) (2,1)
         [tokN "\x7b" "\x7b" (0,14) (0,15),
          namedN "method_declaration" "public void bar()\x7b\x7d" none (1,2) (1,21)
            [namedN "modifiers" "public" none (1,2) (1,8)
              [tokN "public" "public" (1,2) (1,8)],
             namedN "void_type" "void" (some "type") (1,9) (1,13) [],
             namedN "identifier" "bar" (some "name") (1,14) (1,17) [],
             namedN "formal_parameters" "()" (some "parameters") (1,17) (1,19)
              [tokN "(" "(" (1,17) (1,18), tokN ")" ")" (1,18) (1,19)],
             namedN "block" "\x7b\x7d" (some "body") (1,19) (1,21)
              [tokN "\x7b" "\x7b" (1,19) (1,20), tokN "\x7d" "\x7d" (1,20) (1,21)]],
          tokN "\x7d" "\x7d" (2,0) (2,1)]]]

/-- The method dict `JavaParser._extract_methods` builds for `bar` in
`javaBarTree`. -/
def javaBarMethodRec : JMethod :=
  { name := "bar", source_code := "public void bar()\x7b\x7d", doc_comment := "",
    start_point := (1,2), end_point := (1,21), parameters := [],
    return_type := "void" }

/-- The `identifier` leaf of the cpp declarator `compute(int x)`. -/
def cppComputeIdent : Node := namedN "identifier" "compute" none (0,5) (0,12) []

/-- The `function_declarator` node of `int *compute(int x)\x7b...\x7d`
(modelled provider output for the cpp grammar). -/
def cppFnDeclInner : Node :=
  namedN "function_declarator" "compute(int x)" none (0,5) (0,19)
    [cppComputeIdent,
     namedN "parameter_list" "(int x)" (some "parameters") (0,12) (0,19) []]

/-- The `pointer_declarator` wrapper around `cppFnDeclInner` — the node the
`declarator` field of the definition designates for `int *compute(int x)`
(modelled provider output for the cpp grammar). -/
def cppPtrDecl : Node :=
  namedN "pointer_declarator" "*compute(int x)" (some "declarator") (0,4) (0,19)
    [tokN "*" "*" (0,4) (0,5), cppFnDeclInner]

/-- A definition node carrying the python method tag but no `name`-labelled
child (a definition without a structured identifier field). -/
def pyNoNameDef : Node := namedN "def_statement" "def (): pass" none (0,0) (0,12) []

/-- The callable record `_extract_functions` builds for `pyNoNameDef`. -/
def pyNoNameRec : TreesitterMethodNode :=
  { name := "", doc_comment := "", method_source_code := "def (): pass",
    start_line := 0, end_line := 0 }

/-- A definition node carrying the c method tag and no children. -/
def cNoNameDef : Node :=
  namedN "void function_name()\x7b" "void f()\x7b\x7d" none (0,0) (0,11) []

/-- A `string` literal node. -/
def c8String : Node := namedN "string" "\"\"\"doc\"\"\"" none (1,0) (1,9) []

/-- An `expression_statement` node wrapping a string literal. -/
def c8ExprStmt : Node :=
  namedN "expression_statement" "\"\"\"doc\"\"\"" none (1,0) (1,9) [c8String]

/-- A `comment` node. -/
def c8Comment : Node := namedN "comment" "# note" none (0,0) (0,6) []

/-- A definition node whose FIRST child is a comment and whose SECOND child
is a string-bearing expression statement: the doc resolver must look two
hops deep to find the string. -/
def c8DefNode : Node :=
  namedN "function_definition" "def h(): ..." none (0,0) (2,0) [c8Comment, c8ExprStmt]

/-- A `string` node acting as a previous named sibling. -/
def c8PrevString : Node := namedN "string" "\"top\"" none (0,0) (0,5) []

/-- A childless definition node, used with a string-typed previous sibling. -/
def c8Bare : Node := namedN "function_definition" "def g(): 0" none (1,0) (1,10) []

mutual
/-- Decidable equality of nodes. -/
def nodeDecEq : (a b : Node) → Decidable (a = b)
  | .mk i cs, .mk j ds =>
    match decEq i j with
    | isFalse h => isFalse (by intro e; cases e; exact h rfl)
    | isTrue hi =>
      match nodeListDecEq cs ds with
      | isFalse h => isFalse (by intro e; cases e; exact h rfl)
      | isTrue hc => isTrue (by rw [hi, hc])

/-- Decidable equality of node lists. -/
def nodeListDecEq : (a b : NodeList) → Decidable (a = b)
  | .nil, .nil => isTrue rfl
  | .nil, .cons _ _ => isFalse (fun e => NodeList.noConfusion e)
  | .cons _ _, .nil => isFalse (fun e => NodeList.noConfusion e)
  | .cons c cs, .cons d ds =>
    match nodeDecEq c d with
    | isFalse h => isFalse (by intro e; cases e; exact h rfl)
    | isTrue h1 =>
      match nodeListDecEq cs ds with
      | isFalse h => isFalse (by intro e; cases e; exact h rfl)
      | isTrue h2 => isTrue (by rw [h1, h2])
end

instance : DecidableEq Node := nodeDecEq

instance : DecidableEq NodeList := nodeListDecEq

/-- C1: the claim asserts single ownership — a callable listed among a type's
methods never also appears in the file-level callables.  The java parser
violates it: parsing `class Example \x7b public void bar()\x7b\x7d \x7d`
lists the `bar` record both inside the class's `methods` and in the
file-level `functions` sequence, because `parse_code` runs an unscoped
`_extract_methods` traversal from the root in addition to the per-class
traversal. -/
theorem claim_C1_java_double_listing :
    JavaParser.parse_code javaBarTree =
      { imports := [], package := "",
        classes := [{ name := "Example", methods := [javaBarMethodRec],
                      doc_comment := "", fields := [] }],
        functions := [javaBarMethodRec], interfaces := [] } ∧
    javaBarMethodRec ∈ (JavaParser.parse_code javaBarTree).functions ∧
    (JavaParser.parse_code javaBarTree).classes.map JClass.methods =
      [[javaBarMethodRec]] := by
  decide

/-- C2: a request whose lowered language id is not one of the five registered
keys always raises the `Unsupported language` configuration error (never a
success), and each of the five registered ids constructs successfully. -/
theorem claim_C2_registry :
    (∀ language : String,
        strLower language ∉ ["python", "java", "cpp", "c", "javascript"] →
        MultiLanguageParser.init language =
          .error ("Unsupported language: " ++ language)) ∧
    MultiLanguageParser.init "python" = .ok pythonConfig ∧
    MultiLanguageParser.init "java" = .ok javaConfig ∧
    MultiLanguageParser.init "cpp" = .ok cppConfig ∧
    MultiLanguageParser.init "c" = .ok cConfig ∧
    MultiLanguageParser.init "javascript" = .ok javascriptConfig := by
  refine ⟨?_, by decide, by decide, by decide, by decide, by decide⟩
  intro language h
  simp only [List.mem_cons, List.not_mem_nil, or_false, not_or] at h
  obtain ⟨h1, h2, h3, h4, h5⟩ := h
  have e1 : (("python" : String) == strLower language) = false :=
    beq_eq_false_iff_ne.mpr fun e => h1 e.symm
  have e2 : (("java" : String) == strLower language) = false :=
    beq_eq_false_iff_ne.mpr fun e => h2 e.symm
  have e3 : (("cpp" : String) == strLower language) = false :=
    beq_eq_false_iff_ne.mpr fun e => h3 e.symm
  have e4 : (("c" : String) == strLower language) = false :=
    beq_eq_false_iff_ne.mpr fun e => h4 e.symm
  have e5 : (("javascript" : String) == strLower language) = false :=
    beq_eq_false_iff_ne.mpr fun e => h5 e.symm
  simp [MultiLanguageParser.init, LANGUAGE_CONFIGS, List.find?, e1, e2, e3, e4, e5]

/-- C2 witness: the unsupported id `ruby` is rejected with the configuration
error, while `python` succeeds. -/
theorem claim_C2_registry_witness :
    MultiLanguageParser.init "ruby" = .error ("Unsupported language: " ++ "ruby") ∧
    MultiLanguageParser.init "python" = .ok pythonConfig :=
  ⟨claim_C2_registry.1 "ruby" (by decide), claim_C2_registry.2.1⟩

/-- C4: the claim (Scenario 1) expects one top-level callable named `foo`
with doc comment `\"\"\"doc\"\"\"` and start line 0; on the modelled tree for
that exact source the code extracts NO callables at all, because the
configured method tag `def_statement` is not the grammar's node type
(`function_definition`). -/
theorem claim_C4_scenario1_empty :
    MultiLanguageParser.parse pythonConfig (.ok pyFooTree) =
      .ok { imports := [], classes := [], functions := [], «variables» := [] } := by
  decide

/-- C5 counterexample: on the pointer-wrapped declarator of
`int *compute(int x)` the name resolver returns the full declarator text,
not `compute` — it does not unwrap `pointer_declarator` wrappers. -/
theorem claim_C5_counterexample :
    extract_name cppConfig (some cppPtrDecl) = "*compute(int x)" ∧
    extract_name cppConfig (some cppPtrDecl) ≠ "compute" := by
  decide

/-- C5 amended: for the c-family configs the resolver unwraps exactly one
`function_declarator` layer — scanning that node's immediate children for an
`identifier` whose text is returned — and for every other declarator shape
(pointer/array wrappers included) it returns the node's full text. -/
theorem claim_C5_amended (n c : Node) :
    (n.ty = "function_declarator" →
      n.children.findByTy "identifier" = some c →
      extract_name cppConfig (some n) = c.text ∧
      extract_name cConfig (some n) = c.text) ∧
    (n.ty ≠ "function_declarator" →
      extract_name cppConfig (some n) = n.text ∧
      extract_name cConfig (some n) = n.text) := by
  constructor
  · intro h hf
    constructor <;> simp [extract_name, cppConfig, cConfig, h, hf]
  · intro h
    constructor <;> simp [extract_name, cppConfig, cConfig, beq_iff_eq, h]

/-- C5 witness: the unwrapped case — the declarator of `int compute(int x)`
is itself a `function_declarator`, and resolves to `compute`. -/
theorem claim_C5_amended_witness :
    extract_name cppConfig (some cppFnDeclInner) = cppComputeIdent.text :=
  ((claim_C5_amended cppFnDeclInner cppComputeIdent).1 (by decide) (by decide)).1

/-- C6: when the provider signals that the syntax tree could not be built,
`parse` surfaces the failure as the single
`Failed to parse <language> source code: <cause>` error carrying the
language, and returns no `ParseResult` — the call is atomic. -/
theorem claim_C6_parse_error_atomic (cfg : Config) (cause : String) :
    MultiLanguageParser.parse cfg (.error cause) =
      .error ("Failed to parse " ++ cfg.languageId ++ " source code: " ++ cause) ∧
    ∀ r : ParseResult, MultiLanguageParser.parse cfg (.error cause) ≠ .ok r := by
  refine ⟨rfl, fun r hr => ?_⟩
  rw [show MultiLanguageParser.parse cfg (.error cause) =
        .error ("Failed to parse " ++ cfg.languageId ++ " source code: " ++ cause)
      from rfl] at hr
  exact Except.noConfusion hr

/-- C6 witness: a concrete build failure for the c profile. -/
theorem claim_C6_parse_error_atomic_witness :
    MultiLanguageParser.parse cConfig (.error "unbalanced brace") =
      .error ("Failed to parse " ++ cConfig.languageId ++ " source code: " ++
        "unbalanced brace") :=
  (claim_C6_parse_error_atomic cConfig "unbalanced brace").1

/-- C7: Scenario 5 — parsing the modelled tree for `const a = 5;` with the
javascript profile yields exactly one variable record, name `a`, value `5`,
and nothing else. -/
theorem claim_C7_js_const :
    MultiLanguageParser.parse javascriptConfig (.ok jsConstTree) =
      .ok { imports := [], classes := [], functions := [],
            «variables» := [VarRecord.nv "a" "5"] } := by
  decide

/-- C9 counterexample: a matched definition node with no `name`-labelled
child gets the EMPTY name, not the node's full source text as the claim
states. -/
theorem claim_C9_counterexample :
    visit_function pythonConfig pyNoNameDef none = .ok [pyNoNameRec] ∧
    pyNoNameDef.childByFieldName pythonConfig.name_field = none ∧
    pyNoNameRec.name ≠ pyNoNameDef.text := by
  decide

/-- C9 amended: when the profile's name field is absent on a matched
definition node, the record is still produced (extraction does not fail) and
its name defaults to the empty string. -/
theorem claim_C9_amended (cfg : Config) (i : NodeInfo) (cs : NodeList)
    (pn : Option Node) (d : String) (rest : List TreesitterMethodNode)
    (hmatch : tagEq cfg.method_identifier i.ty = true)
    (hname : cs.findByField cfg.name_field = none)
    (hdoc : find_docstring cfg (.mk i cs) pn = .ok d)
    (hrest : visit_function_list cfg cs none = .ok rest) :
    visit_function cfg (.mk i cs) pn =
      .ok ({ name := "", doc_comment := d, method_source_code := i.text,
             start_line := i.startPoint.1, end_line := i.endPoint.1 } :: rest) := by
  simp [visit_function, hmatch, hname, hdoc, hrest, extract_name,
        bind, Except.bind, pure, Except.pure]

/-- C9 witness: a childless matched node for the c profile yields the record
with empty name and the node's source text. -/
theorem claim_C9_amended_witness :
    visit_function cConfig cNoNameDef none =
      .ok [{ name := "", doc_comment := "", method_source_code := "void f()\x7b\x7d",
             start_line := 0, end_line := 0 }] :=
  claim_C9_amended cConfig cNoNameDef.info .nil none "" []
    (by decide) (by decide) (by decide) (by decide)

/-- C8 counterexample: the resolver does not stop after one hop.  On a node
whose first child is a comment and whose second child is a string-bearing
expression statement it returns that string (two hops in); and for the
python (leading-literal) profile the preceding-sibling strategy still fires
as a fallback — both contradicting the claimed one-hop, mutually exclusive
behaviour. -/
theorem claim_C8_counterexample :
    find_docstring pythonConfig c8DefNode none = .ok "\"\"\"doc\"\"\"" ∧
    (c8DefNode.children.head?).map Node.ty = some "comment" ∧
    find_docstring pythonConfig c8Bare (some c8PrevString) = .ok "\"top\"" ∧
    pythonConfig.docstring_type = "string" := by
  decide

mutual
/-- If no node type in the tree is among the config's import identifiers,
the import traversal collects nothing. -/
theorem visit_import_nil (cfg : Config) : ∀ n : Node,
    (∀ s ∈ nodeTypes n, s ∉ cfg.import_identifiers) →
    visit_import cfg n = []
  | .mk i cs, h => by
    have h0 : i.ty ∉ cfg.import_identifiers := h i.ty (by simp [nodeTypes])
    have hrest : visit_import_list cfg cs = [] :=
      visit_import_list_nil cfg cs fun s hs =>
        h s (by simp [nodeTypes]; exact Or.inr hs)
    simp [visit_import, h0, hrest]

/-- Forest version of `visit_import_nil`. -/
theorem visit_import_list_nil (cfg : Config) : ∀ l : NodeList,
    (∀ s ∈ nodeTypesList l, s ∉ cfg.import_identifiers) →
    visit_import_list cfg l = []
  | .nil, _ => by simp [visit_import_list]
  | .cons c cs, h => by
    have h1 : visit_import cfg c = [] :=
      visit_import_nil cfg c fun s hs =>
        h s (by simp [nodeTypesList]; exact Or.inl hs)
    have h2 : visit_import_list cfg cs = [] :=
      visit_import_list_nil cfg cs fun s hs =>
        h s (by simp [nodeTypesList]; exact Or.inr hs)
    simp [visit_import_list, h1, h2]
end

mutual
/-- If no node type in the tree matches the config's method identifier, the
function traversal succeeds with the empty list. -/
theorem visit_function_nil (cfg : Config) : ∀ (n : Node) (pn : Option Node),
    (∀ s ∈ nodeTypes n, tagEq cfg.method_identifier s = false) →
    visit_function cfg n pn = .ok []
  | .mk i cs, pn, h => by
    have h0 : tagEq cfg.method_identifier i.ty = false := h i.ty (by simp [nodeTypes])
    have hrest : visit_function_list cfg cs none = .ok [] :=
      visit_function_list_nil cfg cs none fun s hs =>
        h s (by simp [nodeTypes]; exact Or.inr hs)
    simp [visit_function, h0, hrest, bind, Except.bind, pure, Except.pure]

/-- Forest version of `visit_function_nil`. -/
theorem visit_function_list_nil (cfg : Config) : ∀ (l : NodeList) (pn : Option Node),
    (∀ s ∈ nodeTypesList l, tagEq cfg.method_identifier s = false) →
    visit_function_list cfg l pn = .ok []
  | .nil, _, _ => rfl
  | .cons c cs, pn, h => by
    have h1 : visit_function cfg c pn = .ok [] :=
      visit_function_nil cfg c pn fun s hs =>
        h s (by simp [nodeTypesList]; exact Or.inl hs)
    have h2 : visit_function_list cfg cs (if c.named then some c else pn) = .ok [] :=
      visit_function_list_nil cfg cs (if c.named then some c else pn) fun s hs =>
        h s (by simp [nodeTypesList]; exact Or.inr hs)
    simp [visit_function_list, h1, h2, bind, Except.bind, pure, Except.pure]
end

mutual
/-- If no node type in the tree equals the config's class identifier, the
class traversal succeeds with the empty list. -/
theorem visit_class_nil (cfg : Config) : ∀ (n : Node) (pn : Option Node),
    (∀ s ∈ nodeTypes n, (s == cfg.class_identifier) = false) →
    visit_class cfg n pn = .ok []
  | .mk i cs, pn, h => by
    have h0 : (i.ty == cfg.class_identifier) = false := h i.ty (by simp [nodeTypes])
    have hrest : visit_class_list cfg cs none = .ok [] :=
      visit_class_list_nil cfg cs none fun s hs =>
        h s (by simp [nodeTypes]; exact Or.inr hs)
    simp [visit_class, h0, hrest, bind, Except.bind, pure, Except.pure]

/-- Forest version of `visit_class_nil`. -/
theorem visit_class_list_nil (cfg : Config) : ∀ (l : NodeList) (pn : Option Node),
    (∀ s ∈ nodeTypesList l, (s == cfg.class_identifier) = false) →
    visit_class_list cfg l pn = .ok []
  | .nil, _, _ => rfl
  | .cons c cs, pn, h => by
    have h1 : visit_class cfg c pn = .ok [] :=
      visit_class_nil cfg c pn fun s hs =>
        h s (by simp [nodeTypesList]; exact Or.inl hs)
    have h2 : visit_class_list cfg cs (if c.named then some c else pn) = .ok [] :=
      visit_class_list_nil cfg cs (if c.named then some c else pn) fun s hs =>
        h s (by simp [nodeTypesList]; exact Or.inr hs)
    simp [visit_class_list, h1, h2, bind, Except.bind, pure, Except.pure]
end

/-- C3 counterexample: the claim says `classes` is always empty; on the
modelled python tree for `class A: pass` the anonymous `class` keyword token
— whose node type is exactly the configured python class identifier `class`
— produces a class record. -/
theorem claim_C3_counterexample :
    MultiLanguageParser.parse pythonConfig (.ok pyClassTree) =
      .ok { imports := [], classes := [pyClassTokenRec], functions := [],
            «variables» := [] } ∧
    [pyClassTokenRec] ≠ ([] : List ClassRecord) := by
  decide

/-- C3 amended: over any tree whose node types avoid the configured junk tag
strings (true of every tree the five grammars produce), `imports` and
`functions` are always empty for all five profiles, and `classes` is always
empty for the java/cpp/c/javascript profiles — whose parses always succeed
with only `variables` possibly populated.  For python, `classes` can be
non-empty (the `class` tag matches the anonymous keyword token, see the
counterexample), so there only imports and functions are claimed empty. -/
theorem claim_C3_amended (t : Node) (h : TyAvoids junkTags t) :
    (∀ r : ParseResult, MultiLanguageParser.parse pythonConfig (.ok t) = .ok r →
        r.imports = [] ∧ r.functions = []) ∧
    MultiLanguageParser.parse javaConfig (.ok t) =
      .ok { imports := [], classes := [], functions := [],
            «variables» := visit_variable javaConfig t } ∧
    MultiLanguageParser.parse cppConfig (.ok t) =
      .ok { imports := [], classes := [], functions := [],
            «variables» := visit_variable cppConfig t } ∧
    MultiLanguageParser.parse cConfig (.ok t) =
      .ok { imports := [], classes := [], functions := [],
            «variables» := visit_variable cConfig t } ∧
    MultiLanguageParser.parse javascriptConfig (.ok t) =
      .ok { imports := [], classes := [], functions := [],
            «variables» := visit_variable javascriptConfig t } := by
  have hJ : ∀ s ∈ nodeTypes t, s ∉ junkTags := h
  have impPy : visit_import pythonConfig t = [] :=
    visit_import_nil pythonConfig t fun s hs hm =>
      hJ s hs ((by decide : ∀ x ∈ pythonConfig.import_identifiers, x ∈ junkTags) s hm)
  have impJa : visit_import javaConfig t = [] :=
    visit_import_nil javaConfig t fun s hs hm =>
      hJ s hs ((by decide : ∀ x ∈ javaConfig.import_identifiers, x ∈ junkTags) s hm)
  have impCp : visit_import cppConfig t = [] :=
    visit_import_nil cppConfig t fun s hs hm =>
      hJ s hs ((by decide : ∀ x ∈ cppConfig.import_identifiers, x ∈ junkTags) s hm)
  have impC : visit_import cConfig t = [] :=
    visit_import_nil cConfig t fun s hs hm =>
      hJ s hs ((by decide : ∀ x ∈ cConfig.import_identifiers, x ∈ junkTags) s hm)
  have impJs : visit_import javascriptConfig t = [] :=
    visit_import_nil javascriptConfig t fun s hs hm =>
      hJ s hs ((by decide : ∀ x ∈ javascriptConfig.import_identifiers, x ∈ junkTags) s hm)
  have funPy : visit_function pythonConfig t none = .ok [] := by
    refine visit_function_nil pythonConfig t none ?_
    intro s hs
    have hne : s ≠ "def_statement" := fun e => hJ s hs (by rw [e]; decide)
    simp only [pythonConfig, tagEq, beq_eq_false_iff_ne]
    exact hne
  have funJa : visit_function javaConfig t none = .ok [] :=
    visit_function_nil javaConfig t none fun s _ => rfl
  have funCp : visit_function cppConfig t none = .ok [] := by
    refine visit_function_nil cppConfig t none ?_
    intro s hs
    have hne : s ≠ "void function_name()\x7b" := fun e => hJ s hs (by rw [e]; decide)
    simp only [cppConfig, tagEq, beq_eq_false_iff_ne]
    exact hne
  have funC : visit_function cConfig t none = .ok [] := by
    refine visit_function_nil cConfig t none ?_
    intro s hs
    have hne : s ≠ "void function_name()\x7b" := fun e => hJ s hs (by rw [e]; decide)
    simp only [cConfig, tagEq, beq_eq_false_iff_ne]
    exact hne
  have funJs : visit_function javascriptConfig t none = .ok [] := by
    refine visit_function_nil javascriptConfig t none ?_
    intro s hs
    have hne : s ≠ "function exampleFunction()\x7b" := fun e => hJ s hs (by rw [e]; decide)
    simp only [javascriptConfig, tagEq, beq_eq_false_iff_ne]
    exact hne
  have clsJa : visit_class javaConfig t none = .ok [] := by
    refine visit_class_nil javaConfig t none ?_
    intro s hs
    have hne : s ≠ "public class Example \x7b" := fun e => hJ s hs (by rw [e]; decide)
    simp only [javaConfig, beq_eq_false_iff_ne]
    exact hne
  have clsCp : visit_class cppConfig t none = .ok [] := by
    refine visit_class_nil cppConfig t none ?_
    intro s hs
    have hne : s ≠ "class Example\x7b" := fun e => hJ s hs (by rw [e]; decide)
    simp only [cppConfig, beq_eq_false_iff_ne]
    exact hne
  have clsC : visit_class cConfig t none = .ok [] := by
    refine visit_class_nil cConfig t none ?_
    intro s hs
    have hne : s ≠ "struct Example\x7b" := fun e => hJ s hs (by rw [e]; decide)
    simp only [cConfig, beq_eq_false_iff_ne]
    exact hne
  have clsJs : visit_class javascriptConfig t none = .ok [] := by
    refine visit_class_nil javascriptConfig t none ?_
    intro s hs
    have hne : s ≠ "class declaration\x7b" := fun e => hJ s hs (by rw [e]; decide)
    simp only [javascriptConfig, beq_eq_false_iff_ne]
    exact hne
  refine ⟨?_, ?_, ?_, ?_, ?_⟩
  · intro r hr
    cases hc : visit_class pythonConfig t none with
    | error e =>
      simp [MultiLanguageParser.parse, impPy, funPy, hc, bind, Except.bind,
            pure, Except.pure] at hr
    | ok L =>
      simp [MultiLanguageParser.parse, impPy, funPy, hc, bind, Except.bind,
            pure, Except.pure] at hr
      exact ⟨by rw [← hr], by rw [← hr]⟩
  · simp [MultiLanguageParser.parse, impJa, funJa, clsJa, bind, Except.bind,
          pure, Except.pure]
  · simp [MultiLanguageParser.parse, impCp, funCp, clsCp, bind, Except.bind,
          pure, Except.pure]
  · simp [MultiLanguageParser.parse, impC, funC, clsC, bind, Except.bind,
          pure, Except.pure]
  · simp [MultiLanguageParser.parse, impJs, funJs, clsJs, bind, Except.bind,
          pure, Except.pure]

/-- C3 witness: the java profile on the modelled `const a = 5;` javascript
tree — which avoids every junk tag — parses to the all-empty result. -/
theorem claim_C3_amended_witness :
    MultiLanguageParser.parse javaConfig (.ok jsConstTree) =
      .ok { imports := [], classes := [], functions := [],
            «variables» := visit_variable javaConfig jsConstTree } :=
  (claim_C3_amended jsConstTree (by decide)).2.1

/-- The python child scan selects exactly the first child satisfying
`doc_scan_pred`, crashing when that child has no sub-node and otherwise
returning its first sub-node's text. -/
theorem py_doc_scan_eq_find : ∀ l : NodeList,
    py_doc_scan l =
      (match l.toList.find? doc_scan_pred with
       | some c =>
         match c.children.head? with
         | none => .error "list index out of range"
         | some s => .ok (some s.text)
       | none => .ok none)
  | .nil => rfl
  | .cons c cs => by
    have ih := py_doc_scan_eq_find cs
    simp only [py_doc_scan, NodeList.toList, List.find?]
    by_cases h1 : c.ty = "expression_statement"
    · cases hh : c.children.head? with
      | none =>
        have hp : doc_scan_pred c = true := by simp [doc_scan_pred, h1, hh]
        simp [h1, hh, hp]
      | some s =>
        by_cases h2 : s.ty = "string"
        · have hp : doc_scan_pred c = true := by simp [doc_scan_pred, h1, hh, h2]
          simp [h1, hh, h2, hp]
        · have hp : doc_scan_pred c = false := by simp [doc_scan_pred, h1, hh, h2]
          simp [h1, hh, h2, hp, ih]
    · have hp : doc_scan_pred c = false := by simp [doc_scan_pred, h1]
      simp [h1, hp, ih]

/-- C8 amended: the doc resolver behaves as `find_docstring_spec` describes —
for the python (leading-literal) profile it scans ALL direct children in
order for the first qualifying expression statement, and only when that scan
finds nothing (and for every other profile directly) does it fall back to the
single previous named sibling, whose text is returned exactly when its type
equals the profile's docstring type; so the two strategies are neither
one-hop-limited nor mutually exclusive. -/
theorem claim_C8_amended (cfg : Config) (n : Node) (pn : Option Node) :
    find_docstring cfg n pn = find_docstring_spec cfg n pn := by
  unfold find_docstring find_docstring_spec
  by_cases h : cfg.languageId = "python"
  · simp only [h, beq_self_eq_true, if_pos, py_doc_scan_eq_find n.children]
    cases hf : n.children.toList.find? doc_scan_pred with
    | none =>
      cases pn with
      | none => simp [bind, Except.bind, pure, Except.pure]
      | some p =>
        cases hd : (p.ty == cfg.docstring_type) <;>
          simp [hd, bind, Except.bind, pure, Except.pure]
    | some c =>
      cases hh : c.children.head? <;>
        simp [hh, bind, Except.bind, pure, Except.pure]
  · have hb : (cfg.languageId == "python") = false := beq_eq_false_iff_ne.mpr h
    cases pn with
    | none => simp [hb, bind, Except.bind, pure, Except.pure]
    | some p =>
      cases hd : (p.ty == cfg.docstring_type) <;>
        simp [hb, hd, bind, Except.bind, pure, Except.pure]

/-- Relation `PtLE` is reflexive. -/
theorem ptLE_refl (a : Nat × Nat) : PtLE a a := Or.inr ⟨rfl, le_refl _⟩

/-- Relation `PtLE` is transitive. -/
theorem ptLE_trans {a b c : Nat × Nat} (h1 : PtLE a b) (h2 : PtLE b c) : PtLE a c := by
  rcases h1 with h1 | ⟨e1, l1⟩ <;> rcases h2 with h2 | ⟨e2, l2⟩
  · exact Or.inl (lt_trans h1 h2)
  · exact Or.inl (e2 ▸ h1)
  · exact Or.inl (e1 ▸ h2)
  · exact Or.inr ⟨e1.trans e2, le_trans l1 l2⟩

/-- Relation `PtLE` is monotone in the row. -/
theorem ptLE_row {a b : Nat × Nat} (h : PtLE a b) : a.1 ≤ b.1 := by
  rcases h with h | ⟨e, _⟩
  · exact le_of_lt h
  · exact le_of_eq e

/-- A well-formed node's start point precedes its end point. -/
theorem nodeWF_pt : ∀ n : Node, nodeWF n = true → PtLE n.startPoint n.endPoint
  | .mk i cs, h => by
    simp only [nodeWF, Bool.and_eq_true, decide_eq_true_eq] at h
    exact h.1.1.1.1

mutual
/-- Bounds and document order for the callable traversal on a well-formed
tree: every extracted record's line span lies within the node's line span,
records are internally ordered (`start_line ≤ end_line`), and the output
list is sorted by `start_line`. -/
theorem visit_function_bounds (cfg : Config) : ∀ (n : Node) (pn : Option Node)
    (l : List TreesitterMethodNode), nodeWF n = true →
    visit_function cfg n pn = .ok l →
    (∀ r ∈ l, n.startPoint.1 ≤ r.start_line ∧ r.end_line ≤ n.endPoint.1 ∧
      r.start_line ≤ r.end_line) ∧
    l.Pairwise (fun a b => a.start_line ≤ b.start_line)
  | .mk i cs, pn, l, hwf, hv => by
    simp only [nodeWF, Bool.and_eq_true, decide_eq_true_eq] at hwf
    obtain ⟨⟨⟨⟨hpt, hafter⟩, hbelow⟩, hord⟩, hlwf⟩ := hwf
    cases hA : tagEq cfg.method_identifier i.ty with
    | false =>
      cases hB : visit_function_list cfg cs none with
      | error e =>
        simp [visit_function, hA, hB, bind, Except.bind, pure, Except.pure] at hv
      | ok rest =>
        simp [visit_function, hA, hB, bind, Except.bind, pure, Except.pure] at hv
        subst hv
        have := visit_function_list_bounds cfg cs i.startPoint i.endPoint none
          rest hlwf hord hafter hbelow hB
        exact ⟨fun r hr => this.1 r hr, this.2⟩
    | true =>
      cases hd : find_docstring cfg (.mk i cs) pn with
      | error e =>
        simp [visit_function, hA, hd, bind, Except.bind, pure, Except.pure] at hv
      | ok doc =>
        cases hB : visit_function_list cfg cs none with
        | error e =>
          simp [visit_function, hA, hd, hB, bind, Except.bind, pure, Except.pure] at hv
        | ok rest =>
          simp [visit_function, hA, hd, hB, bind, Except.bind, pure, Except.pure] at hv
          subst hv
          have hrest := visit_function_list_bounds cfg cs i.startPoint i.endPoint none
            rest hlwf hord hafter hbelow hB
          refine ⟨?_, ?_⟩
          · intro r hr
            rcases List.mem_cons.mp hr with rfl | hr
            · exact ⟨le_refl _, le_refl _, ptLE_row hpt⟩
            · exact hrest.1 r hr
          · refine List.pairwise_cons.mpr ⟨?_, hrest.2⟩
            intro b hb
            exact (hrest.1 b hb).1

/-- Forest version of `visit_function_bounds`: for an ordered, well-formed
forest lying between the points `lo` and `hi`. -/
theorem visit_function_list_bounds (cfg : Config) : ∀ (cs : NodeList)
    (lo hi : Nat × Nat) (pn : Option Node) (l : List TreesitterMethodNode),
    nodeListWF cs = true → siblingsOrdered cs = true → allAfter lo cs = true →
    allBelow hi cs = true → visit_function_list cfg cs pn = .ok l →
    (∀ r ∈ l, lo.1 ≤ r.start_line ∧ r.end_line ≤ hi.1 ∧
      r.start_line ≤ r.end_line) ∧
    l.Pairwise (fun a b => a.start_line ≤ b.start_line)
  | .nil, lo, hi, pn, l, _, _, _, _, hv => by
    simp [visit_function_list, pure, Except.pure] at hv
    subst hv
    simp
  | .cons c cs, lo, hi, pn, l, hlwf, hord, hafter, hbelow, hv => by
    simp only [nodeListWF, siblingsOrdered, allAfter, allBelow, Bool.and_eq_true,
      decide_eq_true_eq] at hlwf hord hafter hbelow
    obtain ⟨hcwf, hlwf⟩ := hlwf
    obtain ⟨hcord, hord⟩ := hord
    obtain ⟨hclo, hafter⟩ := hafter
    obtain ⟨hchi, hbelow⟩ := hbelow
    cases hA : visit_function cfg c pn with
    | error e =>
      simp [visit_function_list, hA, bind, Except.bind, pure, Except.pure] at hv
    | ok r1 =>
      cases hB : visit_function_list cfg cs (if c.named then some c else pn) with
      | error e =>
        simp [visit_function_list, hA, hB, bind, Except.bind, pure, Except.pure] at hv
      | ok r2 =>
        simp [visit_function_list, hA, hB, bind, Except.bind, pure, Except.pure] at hv
        subst hv
        have h1 := visit_function_bounds cfg c pn r1 hcwf hA
        have h2 := visit_function_list_bounds cfg cs c.endPoint hi
          (if c.named then some c else pn) r2 hlwf hord hcord hbelow hB
        have hcsp : PtLE c.startPoint c.endPoint := nodeWF_pt c hcwf
        refine ⟨?_, ?_⟩
        · intro r hr
          rcases List.mem_append.mp hr with hr | hr
          · obtain ⟨ha, hb, hc⟩ := h1.1 r hr
            exact ⟨le_trans (ptLE_row hclo) ha, le_trans hb (ptLE_row hchi), hc⟩
          · obtain ⟨ha, hb, hc⟩ := h2.1 r hr
            exact ⟨le_trans (ptLE_row (ptLE_trans hclo hcsp)) ha, hb, hc⟩
        · refine List.pairwise_append.mpr ⟨h1.2, h2.2, ?_⟩
          intro a ha b hb
          obtain ⟨ha1, ha2, ha3⟩ := h1.1 a ha
          obtain ⟨hb1, hb2, hb3⟩ := h2.1 b hb
          exact le_trans ha3 (le_trans ha2 hb1)
end

mutual
/-- Bounds and document order for the class traversal on a well-formed tree:
every class record's point span lies within the node's span and is itself
ordered, and the output list is sorted by start point with any two records
either disjoint (the earlier ends before the later starts) or nested (the
later lies inside the earlier). -/
theorem visit_class_bounds (cfg : Config) : ∀ (n : Node) (pn : Option Node)
    (L : List ClassRecord), nodeWF n = true →
    visit_class cfg n pn = .ok L →
    (∀ r ∈ L, PtLE n.startPoint r.start_point ∧ PtLE r.end_point n.endPoint ∧
      PtLE r.start_point r.end_point) ∧
    L.Pairwise (fun a b => PtLE a.start_point b.start_point ∧
      (PtLE a.end_point b.start_point ∨
        (PtLE a.start_point b.start_point ∧ PtLE b.end_point a.end_point)))
  | .mk i cs, pn, L, hwf, hv => by
    simp only [nodeWF, Bool.and_eq_true, decide_eq_true_eq] at hwf
    obtain ⟨⟨⟨⟨hpt, hafter⟩, hbelow⟩, hord⟩, hlwf⟩ := hwf
    cases hA : (i.ty == cfg.class_identifier) with
    | false =>
      cases hB : visit_class_list cfg cs none with
      | error e =>
        simp [visit_class, hA, hB, bind, Except.bind, pure, Except.pure] at hv
      | ok rest =>
        simp [visit_class, hA, hB, bind, Except.bind, pure, Except.pure] at hv
        subst hv
        have := visit_class_list_bounds cfg cs i.startPoint i.endPoint none
          rest hlwf hord hafter hbelow hB
        exact ⟨fun r hr => this.1 r hr, this.2⟩
    | true =>
      cases hd : find_docstring cfg (.mk i cs) pn with
      | error e =>
        simp [visit_class, hA, hd, bind, Except.bind, pure, Except.pure] at hv
      | ok doc =>
        cases hm : visit_function cfg (.mk i cs) pn with
        | error e =>
          simp [visit_class, hA, hd, hm, bind, Except.bind, pure, Except.pure] at hv
        | ok methods =>
          cases hB : visit_class_list cfg cs none with
          | error e =>
            simp [visit_class, hA, hd, hm, hB, bind, Except.bind, pure,
              Except.pure] at hv
          | ok rest =>
            simp [visit_class, hA, hd, hm, hB, bind, Except.bind, pure,
              Except.pure] at hv
            subst hv
            have hrest := visit_class_list_bounds cfg cs i.startPoint i.endPoint
              none rest hlwf hord hafter hbelow hB
            refine ⟨?_, ?_⟩
            · intro r hr
              rcases List.mem_cons.mp hr with rfl | hr
              · exact ⟨ptLE_refl _, ptLE_refl _, hpt⟩
              · exact hrest.1 r hr
            · refine List.pairwise_cons.mpr ⟨?_, hrest.2⟩
              intro b hb
              obtain ⟨hb1, hb2, _⟩ := hrest.1 b hb
              exact ⟨hb1, Or.inr ⟨hb1, hb2⟩⟩

/-- Forest version of `visit_class_bounds`. -/
theorem visit_class_list_bounds (cfg : Config) : ∀ (cs : NodeList)
    (lo hi : Nat × Nat) (pn : Option Node) (L : List ClassRecord),
    nodeListWF cs = true → siblingsOrdered cs = true → allAfter lo cs = true →
    allBelow hi cs = true → visit_class_list cfg cs pn = .ok L →
    (∀ r ∈ L, PtLE lo r.start_point ∧ PtLE r.end_point hi ∧
      PtLE r.start_point r.end_point) ∧
    L.Pairwise (fun a b => PtLE a.start_point b.start_point ∧
      (PtLE a.end_point b.start_point ∨
        (PtLE a.start_point b.start_point ∧ PtLE b.end_point a.end_point)))
  | .nil, lo, hi, pn, L, _, _, _, _, hv => by
    simp [visit_class_list, pure, Except.pure] at hv
    subst hv
    simp
  | .cons c cs, lo, hi, pn, L, hlwf, hord, hafter, hbelow, hv => by
    simp only [nodeListWF, siblingsOrdered, allAfter, allBelow, Bool.and_eq_true,
      decide_eq_true_eq] at hlwf hord hafter hbelow
    obtain ⟨hcwf, hlwf⟩ := hlwf
    obtain ⟨hcord, hord⟩ := hord
    obtain ⟨hclo, hafter⟩ := hafter
    obtain ⟨hchi, hbelow⟩ := hbelow
    cases hA : visit_class cfg c pn with
    | error e =>
      simp [visit_class_list, hA, bind, Except.bind, pure, Except.pure] at hv
    | ok r1 =>
      cases hB : visit_class_list cfg cs (if c.named then some c else pn) with
      | error e =>
        simp [visit_class_list, hA, hB, bind, Except.bind, pure, Except.pure] at hv
      | ok r2 =>
        simp [visit_class_list, hA, hB, bind, Except.bind, pure, Except.pure] at hv
        subst hv
        have h1 := visit_class_bounds cfg c pn r1 hcwf hA
        have h2 := visit_class_list_bounds cfg cs c.endPoint hi
          (if c.named then some c else pn) r2 hlwf hord hcord hbelow hB
        have hcsp : PtLE c.startPoint c.endPoint := nodeWF_pt c hcwf
        refine ⟨?_, ?_⟩
        · intro r hr
          rcases List.mem_append.mp hr with hr | hr
          · obtain ⟨ha, hb, hc⟩ := h1.1 r hr
            exact ⟨ptLE_trans hclo ha, ptLE_trans hb hchi, hc⟩
          · obtain ⟨ha, hb, hc⟩ := h2.1 r hr
            exact ⟨ptLE_trans (ptLE_trans hclo hcsp) ha, hb, hc⟩
        · refine List.pairwise_append.mpr ⟨h1.2, h2.2, ?_⟩
          intro a ha b hb
          obtain ⟨ha1, ha2, ha3⟩ := h1.1 a ha
          obtain ⟨hb1, hb2, hb3⟩ := h2.1 b hb
          have hsep : PtLE a.end_point b.start_point := ptLE_trans ha2 hb1
          exact ⟨ptLE_trans ha3 hsep, Or.inl hsep⟩
end

/-- C10: on any well-formed tree, every callable record's line span and every
class record's point span lie within the root's span (the parsed text), the
`functions` sequence is sorted by start line, and the `classes` sequence is
sorted by start point with the spans of any two records either nested or
non-overlapping. -/
theorem claim_C10_spans_order (cfg : Config) (t : Node) (pn : Option Node)
    (h : nodeWF t = true) :
    (∀ l : List TreesitterMethodNode, visit_function cfg t pn = .ok l →
      (∀ r ∈ l, t.startPoint.1 ≤ r.start_line ∧ r.end_line ≤ t.endPoint.1) ∧
      l.Pairwise (fun a b => a.start_line ≤ b.start_line)) ∧
    (∀ L : List ClassRecord, visit_class cfg t pn = .ok L →
      (∀ r ∈ L, PtLE t.startPoint r.start_point ∧ PtLE r.end_point t.endPoint) ∧
      L.Pairwise (fun a b => PtLE a.start_point b.start_point ∧
        (PtLE a.end_point b.start_point ∨
          (PtLE a.start_point b.start_point ∧ PtLE b.end_point a.end_point)))) := by
  constructor
  · intro l hl
    have := visit_function_bounds cfg t pn l h hl
    exact ⟨fun r hr => ⟨(this.1 r hr).1, (this.1 r hr).2.1⟩, this.2⟩
  · intro L hL
    have := visit_class_bounds cfg t pn L h hL
    exact ⟨fun r hr => ⟨(this.1 r hr).1, (this.1 r hr).2.1⟩, this.2⟩

/-- C10 witness: on the well-formed modelled `class A: pass` python tree the
single extracted class record's span lies within the root's span. -/
theorem claim_C10_spans_order_witness :
    PtLE pyClassTree.startPoint pyClassTokenRec.start_point ∧
    PtLE pyClassTokenRec.end_point pyClassTree.endPoint :=
  (((claim_C10_spans_order pythonConfig pyClassTree none (by decide)).2
      [pyClassTokenRec] (by decide)).1 pyClassTokenRec (by decide))

/-- C8 witness: the equivalence evaluated at the two-hop example node. -/
theorem claim_C8_amended_witness :
    find_docstring pythonConfig c8DefNode none =
      find_docstring_spec pythonConfig c8DefNode none :=
  claim_C8_amended pythonConfig c8DefNode none
